import Mathlib

/-!
Verification of the alos-gg-solver proof-of-work client (src/alos.py).

The Python source is shallowly embedded below.  Machine integers are
modelled as `Nat` with explicit reductions `% 2^32` where the SHA-256
rounds overflow; Python strings are modelled as `String` / `List Char`;
fallible operations return `Option`.  The unbounded brute-force loop of
`_solve_proof` is modelled with an explicit fuel argument.
-/

namespace Alos

set_option maxRecDepth 100000

/-! ## Small helpers -/

/-- Truncation to a 32-bit word, as Python's `& 0xFFFFFFFF` effect inside
`hashlib`'s compression arithmetic. -/
def w32 (n : Nat) : Nat := n % 4294967296

/-- Right rotation of a 32-bit word. -/
def rotr32 (k x : Nat) : Nat := w32 ((x >>> k) ||| (x <<< (32 - k)))

def smallSig0 (x : Nat) : Nat := (rotr32 7 x) ^^^ (rotr32 18 x) ^^^ (x >>> 3)

def smallSig1 (x : Nat) : Nat := (rotr32 17 x) ^^^ (rotr32 19 x) ^^^ (x >>> 10)

def bigSig0 (x : Nat) : Nat := (rotr32 2 x) ^^^ (rotr32 13 x) ^^^ (rotr32 22 x)

def bigSig1 (x : Nat) : Nat := (rotr32 6 x) ^^^ (rotr32 11 x) ^^^ (rotr32 25 x)

def chF (x y z : Nat) : Nat := (x &&& y) ^^^ ((x ^^^ 4294967295) &&& z)

def majF (x y z : Nat) : Nat := (x &&& y) ^^^ (x &&& z) ^^^ (y &&& z)

/-- The 64 SHA-256 round constants (FIPS 180-4). -/
def shaK : List Nat :=
  [1116352408, 1899447441, 3049323471, 3921009573, 961987163, 1508970993, 2453635748, 2870763221,
   3624381080, 310598401, 607225278, 1426881987, 1925078388, 2162078206, 2614888103, 3248222580,
   3835390401, 4022224774, 264347078, 604807628, 770255983, 1249150122, 1555081692, 1996064986,
   2554220882, 2821834349, 2952996808, 3210313671, 3336571891, 3584528711, 113926993, 338241895,
   666307205, 773529912, 1294757372, 1396182291, 1695183700, 1986661051, 2177026350, 2456956037,
   2730485921, 2820302411, 3259730800, 3345764771, 3516065817, 3600352804, 4094571909, 275423344,
   430227734, 506948616, 659060556, 883997877, 958139571, 1322822218, 1537002063, 1747873779,
   1955562222, 2024104815, 2227730452, 2361852424, 2428436474, 2756734187, 3204031479, 3329325298]

/-- The initial SHA-256 hash state (FIPS 180-4). -/
def shaH0 : List Nat :=
  [1779033703, 3144134277, 1013904242, 2773480762, 1359893119, 2600822924, 528734635, 1541459225]

/-- Big-endian packing of bytes into 32-bit words. -/
def bytesToWords : List Nat → List Nat
  | b0 :: b1 :: b2 :: b3 :: rest =>
      (((b0 * 256 + b1) * 256 + b2) * 256 + b3) :: bytesToWords rest
  | _ => []

/-- Extend a 16-word message block to the 64-word schedule. -/
def extendW : Nat → Array Nat → Array Nat
  | 0, w => w
  | n + 1, w =>
      let i := w.size
      let x := w32 ((w.getD (i - 16) 0) + smallSig0 (w.getD (i - 15) 0) +
                    (w.getD (i - 7) 0) + smallSig1 (w.getD (i - 2) 0))
      extendW n (w.push x)

/-- One SHA-256 compression round; the state is the running 8-word vector. -/
def roundStep (st : List Nat) (kw : Nat × Nat) : List Nat :=
  match st with
  | [a, b, c, d, e, f, g, h] =>
      let t1 := w32 (h + bigSig1 e + chF e f g + kw.1 + kw.2)
      let t2 := w32 (bigSig0 a + majF a b c)
      [w32 (t1 + t2), a, b, c, w32 (d + t1), e, f, g]
  | _ => st

/-- Process one 64-byte block against the running hash state. -/
def processBlock (h : List Nat) (block : List Nat) : List Nat :=
  let ws := extendW 48 (Array.mk (bytesToWords block))
  let st := (shaK.zip ws.toList).foldl roundStep h
  (h.zip st).map (fun p => w32 (p.1 + p.2))

/-- Big-endian bytes of an 8-byte (64-bit) length field. -/
def len64Bytes (n : Nat) : List Nat :=
  [w32 0 + n / 72057594037927936 % 256, n / 281474976710656 % 256,
   n / 1099511627776 % 256, n / 4294967296 % 256,
   n / 16777216 % 256, n / 65536 % 256, n / 256 % 256, n % 256]

/-- SHA-256 padding: append 0x80, zero-fill to 56 mod 64, then the bit length. -/
def padMsg (ms : List Nat) : List Nat :=
  let L := ms.length
  let z := (119 - L % 64) % 64
  ms ++ [128] ++ List.replicate z 0 ++ len64Bytes (8 * L)

/-- Split a byte list into 64-byte blocks (fuel-driven; fuel `length+1` suffices). -/
def chunks64F : Nat → List Nat → List (List Nat)
  | 0, _ => []
  | _, [] => []
  | n + 1, l => l.take 64 :: chunks64F n (l.drop 64)

/-- The SHA-256 digest of a byte string, as 32 bytes. -/
def sha256bytes (msg : List Nat) : List Nat :=
  let padded := padMsg msg
  let blocks := chunks64F (padded.length + 1) padded
  let hFinal := blocks.foldl processBlock shaH0
  hFinal.foldr (fun w acc =>
    (w / 16777216 % 256) :: (w / 65536 % 256) :: (w / 256 % 256) :: (w % 256) :: acc) []

/-- Lower-case hex digit, as produced by Python's `hexdigest()`. -/
def hexChar (n : Nat) : Char := if n < 10 then Char.ofNat (48 + n) else Char.ofNat (87 + n)

/-- The lower-case hexadecimal SHA-256 digest (Python `hashlib.sha256(..).hexdigest()`). -/
def sha256hex (msg : List Nat) : List Char :=
  (sha256bytes msg).foldr (fun b acc => hexChar (b / 16) :: hexChar (b % 16) :: acc) []

/-- UTF-8 encoding of a single character (Python `str.encode()` per char). -/
def utf8EncodeCh (c : Char) : List Nat :=
  let n := c.toNat
  if n < 128 then [n]
  else if n < 2048 then [192 ||| (n >>> 6), 128 ||| (n &&& 63)]
  else if n < 65536 then
    [224 ||| (n >>> 12), 128 ||| ((n >>> 6) &&& 63), 128 ||| (n &&& 63)]
  else
    [240 ||| (n >>> 18), 128 ||| ((n >>> 12) &&& 63), 128 ||| ((n >>> 6) &&& 63),
     128 ||| (n &&& 63)]

/-- UTF-8 bytes of a string: Python's `s.encode()`. -/
def strBytes (s : String) : List Nat := (s.data.map utf8EncodeCh).flatten

/-- Decimal digit characters of a natural number, accumulator style. -/
def natDecAux : Nat → Nat → List Char → List Char
  | 0, _, acc => acc
  | fuel + 1, n, acc =>
      if n = 0 then acc else natDecAux fuel (n / 10) (Char.ofNat (48 + n % 10) :: acc)

/-- Decimal representation of a nonce: Python's `str(nonce)` for a non-negative int. -/
def natDecChars (n : Nat) : List Char :=
  if n = 0 then [Char.ofNat 48] else natDecAux (n + 1) n []

/-! ## The proof-of-work solver (`_solve_proof`, src/alos.py lines 179-186) -/

/-- The hashed message of `_solve_proof`: `challenge.encode() + str(nonce).encode()`. -/
def powBytes (s : String) (nonce : Nat) : List Nat :=
  strBytes s ++ (natDecChars nonce).map Char.toNat

/-- `digest.startswith(self.prefix)` where the session's required hash head is
`"0" * difficulty` (src/alos.py line 80 and 184). -/
def powOk (d : Nat) (s : String) (nonce : Nat) : Bool :=
  (List.replicate d (Char.ofNat 48)).isPrefixOf (sha256hex (powBytes s nonce))

/-- The brute-force loop of `_solve_proof`, starting at the given nonce; the
Python loop is unbounded, modelled here with explicit fuel. -/
def solveProofAux (d : Nat) (s : String) : Nat → Nat → Option Nat
  | 0, _ => none
  | fuel + 1, nonce =>
      if powOk d s nonce then some nonce else solveProofAux d s fuel (nonce + 1)

/-- `_solve_proof(challenge)`: scan nonces upward from 0. -/
def solveProofM (d fuel : Nat) (s : String) : Option Nat := solveProofAux d s fuel 0

/-- Sanity: the embedding reproduces the standard SHA-256 vector for "abc". -/
theorem sha256_abc_vector :
    sha256hex (strBytes "abc") =
      "ba7816bf8f01cfea414140de5dae2223b00361a396177a9cb410ff61f20015ad".data := by
  decide

/-- Any nonce the loop returns is valid and no nonce between the start
and it is valid. -/
theorem solveProofAux_sound (d : Nat) (s : String) :
    ∀ fuel start n, solveProofAux d s fuel start = some n →
      powOk d s n = true ∧ start ≤ n ∧
        ∀ k, start ≤ k → k < n → powOk d s k = false := by
  intro fuel
  induction fuel with
  | zero => intro start n h; simp [solveProofAux] at h
  | succ f ih =>
    intro start n h
    simp only [solveProofAux] at h
    by_cases hp : powOk d s start = true
    · rw [if_pos hp] at h
      cases h
      exact ⟨hp, Nat.le_refl _, fun k hk1 hk2 => absurd hk1 (Nat.not_le.mpr hk2)⟩
    · rw [if_neg hp] at h
      obtain ⟨h1, h2, h3⟩ := ih (start + 1) n h
      refine ⟨h1, Nat.le_trans (Nat.le_succ _) h2, fun k hk1 hk2 => ?_⟩
      rcases Nat.eq_or_lt_of_le hk1 with heq | hlt
      · subst heq
        exact Bool.eq_false_iff.mpr hp
      · exact h3 k hlt hk2

/-- If a valid nonce lies within the fuel window, the loop succeeds. -/
theorem solveProofAux_complete (d : Nat) (s : String) :
    ∀ fuel start m, powOk d s m = true → start ≤ m → m < start + fuel →
      (solveProofAux d s fuel start).isSome = true := by
  intro fuel
  induction fuel with
  | zero => intro start m _ h1 h2; omega
  | succ f ih =>
    intro start m hm h1 h2
    simp only [solveProofAux]
    by_cases hp : powOk d s start = true
    · rw [if_pos hp]; rfl
    · rw [if_neg hp]
      have hne : start ≠ m := fun he => hp (he ▸ hm)
      exact ih (start + 1) m hm (by omega) (by omega)

/-- Claim C1: for every difficulty `d ≥ 0` and challenge string `s` that has a
valid nonce at all, `_solve_proof` returns a nonce `n` whose SHA-256 hex digest
of `s` concatenated with the decimal representation of `n` starts with `d` zero
hex digits, and no smaller nonce also satisfies this (minimality). -/
theorem solve_proof_returns_minimal_valid_nonce (d : Nat) (s : String) (m : Nat)
    (hm : powOk d s m = true) :
    ∃ n, solveProofM d (m + 1) s = some n ∧ powOk d s n = true ∧
      ∀ k, k < n → powOk d s k = false := by
  have hs : (solveProofAux d s (m + 1) 0).isSome = true :=
    solveProofAux_complete d s (m + 1) 0 m hm (Nat.zero_le m) (by omega)
  obtain ⟨n, hn⟩ := Option.isSome_iff_exists.mp hs
  obtain ⟨h1, _, h3⟩ := solveProofAux_sound d s (m + 1) 0 n hn
  exact ⟨n, hn, h1, fun k hk => h3 k (Nat.zero_le k) hk⟩

/-- Witness for C1 at difficulty 1 and challenge "abc": nonce 26 is valid, so
the solver returns a minimal valid nonce. -/
theorem solve_proof_returns_minimal_valid_nonce_witness :
    ∃ n, solveProofM 1 27 "abc" = some n ∧ powOk 1 "abc" n = true ∧
      ∀ k, k < n → powOk 1 "abc" k = false :=
  solve_proof_returns_minimal_valid_nonce 1 "abc" 26 (by decide)

/-! ## Character classes of the Python regexes

Python's `\s` and `\w` on `str` also cover some non-ASCII code points; the
pages this client parses are ASCII, and the classes are modelled on their
ASCII fragment. -/

/-- The single-quote character. -/
def sq : Char := Char.ofNat 39

/-- The double-quote character. -/
def dq : Char := Char.ofNat 34

/-- The newline character (which `.` in Python regexes does not match). -/
def nl : Char := Char.ofNat 10

/-- Python `\s` (ASCII fragment): space, tab, newline, CR, VT, FF. -/
def isSpacePy (c : Char) : Bool :=
  c.toNat == 32 || c.toNat == 9 || c.toNat == 10 || c.toNat == 13 ||
  c.toNat == 11 || c.toNat == 12

/-- Python `\w` (ASCII fragment): letters, digits, underscore. -/
def isWordPy (c : Char) : Bool :=
  (97 ≤ c.toNat && c.toNat ≤ 122) || (65 ≤ c.toNat && c.toNat ≤ 90) ||
  (48 ≤ c.toNat && c.toNat ≤ 57) || c.toNat == 95

/-- The class `[A-Za-z0-9+/=]` used for base64-looking literals. -/
def isB64Ch (c : Char) : Bool :=
  (97 ≤ c.toNat && c.toNat ≤ 122) || (65 ≤ c.toNat && c.toNat ≤ 90) ||
  (48 ≤ c.toNat && c.toNat ≤ 57) || c == '+' || c == '/' || c == '='

/-- Either quote character, the class `['\x22]` of the source regexes. -/
def isQuoteCh (c : Char) : Bool := c == sq || c == dq

/-! ## Comment stripping (src/alos.py lines 131-132 and 154-155) -/

/-- `re.sub(r"//.*", "", text)`: drop from each `//` to the end of its line. -/
def stripLineAux : Nat → List Char → List Char
  | 0, l => l
  | _, [] => []
  | fuel + 1, c :: rest =>
    if c == '/' && rest.headD c == '/' then
      stripLineAux fuel (rest.tail.dropWhile (fun x => !(x == nl)))
    else c :: stripLineAux fuel rest

def stripLineComments (l : List Char) : List Char := stripLineAux (l.length + 1) l

/-- Scan for the nearest `*/`, returning the suffix after it. -/
def findBlockClose : List Char → Option (List Char)
  | [] => none
  | '*' :: '/' :: rest => some rest
  | _ :: rest => findBlockClose rest

/-- `re.sub(r"/\x2a.*?\x2a/", "", text, flags=re.S)`: non-greedy removal of
block comments; an unclosed `/*` is left in place. -/
def stripBlockAux : Nat → List Char → List Char
  | 0, l => l
  | _, [] => []
  | fuel + 1, c :: rest =>
    if c == '/' && rest.headD c == '*' then
      match findBlockClose rest.tail with
      | some rest3 => stripBlockAux fuel rest3
      | none => c :: stripBlockAux fuel rest
    else c :: stripBlockAux fuel rest

def stripBlockComments (l : List Char) : List Char := stripBlockAux (l.length + 1) l

/-! ## Regex scanning primitives

Each concrete regex of the source is embedded as a matcher that attempts the
pattern at the head of the text and returns the captured value plus the rest
of the text after the match.  `re.findall` / `re.finditer` semantics —
leftmost, non-overlapping, continue after each match — are given by the fuel
driven drivers below (fuel `length+1` suffices since every attempt either
consumes at least one character or moves one character forward). -/

def scanAllAux {α : Type} (mf : List Char → Option (α × List Char)) :
    Nat → List Char → List α
  | 0, _ => []
  | _, [] => []
  | fuel + 1, c :: t =>
    match mf (c :: t) with
    | some (a, rest) => a :: scanAllAux mf fuel rest
    | none => scanAllAux mf fuel t

def scanFirstAux {α : Type} (mf : List Char → Option (α × List Char)) :
    Nat → List Char → Option α
  | 0, _ => none
  | _, [] => none
  | fuel + 1, c :: t =>
    match mf (c :: t) with
    | some (a, _) => some a
    | none => scanFirstAux mf fuel t

/-- Match a literal character sequence. -/
def expectChars : List Char → List Char → Option (List Char)
  | [], l => some l
  | _, [] => none
  | p :: ps, c :: cs => if c == p then expectChars ps cs else none

/-- `const\s+(\w+)\s*=\s*['\x22]([A-Za-z0-9+/=]\x7b20,\x7d)['\x22]` at the head
of the text (src/alos.py lines 156-159 and 170). -/
def matchConstDecl (l : List Char) : Option ((String × String) × List Char) :=
  match expectChars "const".data l with
  | none => none
  | some l1 =>
    let sp := l1.span isSpacePy
    if sp.1.isEmpty then none else
    let nm := sp.2.span isWordPy
    if nm.1.isEmpty then none else
    match nm.2.dropWhile isSpacePy with
    | '=' :: l5 =>
      match l5.dropWhile isSpacePy with
      | q1 :: l7 =>
        if isQuoteCh q1 then
          let vl := l7.span isB64Ch
          if vl.1.length < 20 then none else
          match vl.2 with
          | q2 :: l9 =>
              if isQuoteCh q2 then some ((String.mk nm.1, String.mk vl.1), l9) else none
          | [] => none
        else none
      | [] => none
    | _ => none

/-- `var\s+(\w+)\s*=\s*window` at the head of the text (src/alos.py line 133). -/
def matchVarWindow (l : List Char) : Option (String × List Char) :=
  match expectChars "var".data l with
  | none => none
  | some l1 =>
    let sp := l1.span isSpacePy
    if sp.1.isEmpty then none else
    let nm := sp.2.span isWordPy
    if nm.1.isEmpty then none else
    match nm.2.dropWhile isSpacePy with
    | '=' :: l5 =>
      match expectChars "window".data (l5.dropWhile isSpacePy) with
      | some rest => some (String.mk nm.1, rest)
      | none => none
    | _ => none

/-- `var\s+(\w+)\s*=\s*(\w+)\s*;` at the head of the text (src/alos.py line 135). -/
def matchVarAssign (l : List Char) : Option ((String × String) × List Char) :=
  match expectChars "var".data l with
  | none => none
  | some l1 =>
    let sp := l1.span isSpacePy
    if sp.1.isEmpty then none else
    let nm := sp.2.span isWordPy
    if nm.1.isEmpty then none else
    match nm.2.dropWhile isSpacePy with
    | '=' :: l5 =>
      let tg := (l5.dropWhile isSpacePy).span isWordPy
      if tg.1.isEmpty then none else
      match tg.2.dropWhile isSpacePy with
      | ';' :: rest => some ((String.mk nm.1, String.mk tg.1), rest)
      | _ => none
    | _ => none

/-- `\s*\[\s*\w+\s*\]` — one bracketed word of the invoke pattern. -/
def matchBrkWord (l : List Char) : Option (List Char) :=
  match l.dropWhile isSpacePy with
  | '[' :: l1 =>
    let wd := (l1.dropWhile isSpacePy).span isWordPy
    if wd.1.isEmpty then none else
    match wd.2.dropWhile isSpacePy with
    | ']' :: l4 => some l4
    | _ => none
  | _ => none

/-- The invoke pattern of src/alos.py lines 138-143:
`alias\s*\[\s*\w+\s*\]\s*\[\s*\w+\s*\]\s*\(\s*['\x22](blob)['\x22]` with the
blob a `[A-Za-z0-9+/=]` run of length at least 30. -/
def matchInvoke (aliasCs : List Char) (l : List Char) : Option (String × List Char) :=
  match expectChars aliasCs l with
  | none => none
  | some l1 =>
    match matchBrkWord l1 with
    | none => none
    | some l2 =>
      match matchBrkWord l2 with
      | none => none
      | some l3 =>
        match l3.dropWhile isSpacePy with
        | '(' :: l4 =>
          match l4.dropWhile isSpacePy with
          | q1 :: l6 =>
            if isQuoteCh q1 then
              let bl := l6.span isB64Ch
              if bl.1.length < 30 then none else
              match bl.2 with
              | q2 :: l8 => if isQuoteCh q2 then some (String.mk bl.1, l8) else none
              | [] => none
            else none
          | [] => none
        | _ => none

/-- The fallback blob pattern `['\x22]([A-Za-z0-9+/=]\x7b30,\x7d)['\x22]`
(src/alos.py line 146). -/
def matchQuoted30 (l : List Char) : Option (String × List Char) :=
  match l with
  | q1 :: l1 =>
    if isQuoteCh q1 then
      let bl := l1.span isB64Ch
      if bl.1.length < 30 then none else
      match bl.2 with
      | q2 :: l3 => if isQuoteCh q2 then some (String.mk bl.1, l3) else none
      | [] => none
    else none
  | [] => none

/-! ## Base64 decoding, Python legacy semantics

`base64.b64decode` (src/alos.py line 151) in its default non-validating mode:
data characters accumulate in quads; a pad character ends decoding once at
least two data characters of the current quad are present and the pads make
the quad up to four; stray pads are skipped; leftover data characters at the
end of input (a quad of one, two or three) raise, modelled as `none`. -/

def b64Val (c : Char) : Option Nat :=
  let n := c.toNat
  if 65 ≤ n && n ≤ 90 then some (n - 65)
  else if 97 ≤ n && n ≤ 122 then some (n - 71)
  else if 48 ≤ n && n ≤ 57 then some (n + 4)
  else if c == '+' then some 62
  else if c == '/' then some 63
  else none

/-- Three output bytes of a full quad of 6-bit values. -/
def b64Flush (quad : List Nat) : List Nat :=
  match quad with
  | [v0, v1, v2, v3] =>
      [(v0 <<< 2) + (v1 >>> 4), ((v1 % 16) <<< 4) + (v2 >>> 2), ((v2 % 4) <<< 6) + v3]
  | _ => []

/-- Output bytes of a pad-terminated partial quad. -/
def b64Partial (quad : List Nat) : List Nat :=
  match quad with
  | [v0, v1] => [(v0 <<< 2) + (v1 >>> 4)]
  | [v0, v1, v2] => [(v0 <<< 2) + (v1 >>> 4), ((v1 % 16) <<< 4) + (v2 >>> 2)]
  | _ => []

def b64Run : List Char → List Nat → Nat → List Nat → Option (List Nat)
  | [], quad, _, out => if quad.length == 0 then some out else none
  | c :: cs, quad, pads, out =>
    if c == '=' then
      if 2 ≤ quad.length && 4 ≤ quad.length + (pads + 1) then
        some (out ++ b64Partial quad)
      else b64Run cs quad (pads + 1) out
    else
      match b64Val c with
      | some v =>
          let q := quad ++ [v]
          if q.length == 4 then b64Run cs [] 0 (out ++ b64Flush q)
          else b64Run cs q 0 out
      | none => b64Run cs quad pads out

/-- `base64.b64decode(blob)` returning raw bytes, or `none` on the padding
errors the source catches. -/
def b64decodePy (s : String) : Option (List Nat) := b64Run s.data [] 0 []

/-! ## UTF-8 decoding with errors ignored (src/alos.py line 151)

CPython drops each maximal invalid subpart: an invalid start byte is skipped;
a start byte whose continuation fails is skipped together with the valid
continuation bytes already read, restarting at the offending byte.  Range
restrictions (overlongs, surrogates, beyond U+10FFFF) follow CPython. -/

def contOk (b : Nat) : Bool := 128 ≤ b && b ≤ 191

def utf8DecAux : Nat → List Nat → List Char
  | 0, _ => []
  | _, [] => []
  | fuel + 1, b :: rest =>
    if b < 128 then Char.ofNat b :: utf8DecAux fuel rest
    else if 194 ≤ b && b ≤ 223 then
      match rest with
      | b1 :: rest1 =>
        if contOk b1 then
          Char.ofNat (((b - 192) <<< 6) + (b1 - 128)) :: utf8DecAux fuel rest1
        else utf8DecAux fuel rest
      | [] => []
    else if 224 ≤ b && b ≤ 239 then
      let lo2 := if b == 224 then 160 else 128
      let hi2 := if b == 237 then 159 else 191
      match rest with
      | b1 :: rest1 =>
        if lo2 ≤ b1 && b1 ≤ hi2 then
          match rest1 with
          | b2 :: rest2 =>
            if contOk b2 then
              Char.ofNat (((b - 224) <<< 12) + ((b1 - 128) <<< 6) + (b2 - 128)) ::
                utf8DecAux fuel rest2
            else utf8DecAux fuel rest1
          | [] => []
        else utf8DecAux fuel rest
      | [] => []
    else if 240 ≤ b && b ≤ 244 then
      let lo2 := if b == 240 then 144 else 128
      let hi2 := if b == 244 then 143 else 191
      match rest with
      | b1 :: rest1 =>
        if lo2 ≤ b1 && b1 ≤ hi2 then
          match rest1 with
          | b2 :: rest2 =>
            if contOk b2 then
              match rest2 with
              | b3 :: rest3 =>
                if contOk b3 then
                  Char.ofNat (((b - 240) <<< 18) + ((b1 - 128) <<< 12) +
                    ((b2 - 128) <<< 6) + (b3 - 128)) :: utf8DecAux fuel rest3
                else utf8DecAux fuel rest2
              | [] => []
            else utf8DecAux fuel rest1
          | [] => []
        else utf8DecAux fuel rest
      | [] => []
    else utf8DecAux fuel rest

/-- `bytes.decode(utf8, errors=ignore)`. -/
def utf8DecodeIgnore (bs : List Nat) : List Char := utf8DecAux (bs.length + 1) bs

/-! ## The de-obfuscation engine (`_extract_payload_with_challenge`,
src/alos.py lines 130-167) -/

/-- First-occurrence deduplication, the deterministic stand-in for iterating
Python `set(blobs)` (whose order is unspecified); the theorems below are
stated order-independently. -/
def dedupAux {α : Type} [BEq α] : List α → List α → List α
  | _, [] => []
  | seen, x :: xs =>
      if seen.contains x then dedupAux seen xs else x :: dedupAux (x :: seen) xs

def dedupFirst {α : Type} [BEq α] (l : List α) : List α := dedupAux [] l

/-- The comment-stripped text (src/alos.py lines 131-132). -/
def cleanedText (html : String) : List Char :=
  stripBlockComments (stripLineComments html.data)

/-- The alias chain resolution (src/alos.py lines 133-137): the first name
bound to `window`, defaulting to `window`, then the left-to-right fold over
all `var name = target;` bindings. -/
def aliasFor (clean : List Char) : String :=
  let alias0 : String := (scanFirstAux matchVarWindow (clean.length + 1) clean).getD "window"
  (scanAllAux matchVarAssign (clean.length + 1) clean).foldl
    (fun a p => if p.2 == a then p.1 else a) alias0

/-- The candidate blob list (src/alos.py lines 144-146): invoke-pattern blobs,
else all long quoted base64-looking literals. -/
def rawBlobs (clean : List Char) : List String :=
  let inv := scanAllAux (matchInvoke (aliasFor clean).data) (clean.length + 1) clean
  if inv.isEmpty then scanAllAux matchQuoted30 (clean.length + 1) clean else inv

def candidateBlobs (html : String) : List String :=
  dedupFirst (rawBlobs (cleanedText html))

/-- Decode a blob and strip comments from the decoded text
(src/alos.py lines 150-155). -/
def cleanDecodedOf (blob : String) : Option (List Char) :=
  match b64decodePy blob with
  | none => none
  | some bytes => some (stripBlockComments (stripLineComments (utf8DecodeIgnore bytes)))

/-- The embedded-constant count over a text (src/alos.py lines 156-159). -/
def constCount (text : List Char) : Nat :=
  (scanAllAux matchConstDecl (text.length + 1) text).length

/-- Candidate scoring (src/alos.py lines 160-163): `none` when the blob fails
to decode or has fewer than two embedded constant declarations, otherwise the
cleaned decoded text with `count * 10000 + len(cleaned)`. -/
def blobScore (blob : String) : Option (List Char × Nat) :=
  match cleanDecodedOf blob with
  | none => none
  | some dc =>
    let cnt := constCount dc
    if cnt < 2 then none else some (dc, cnt * 10000 + dc.length)

/-- The best-candidate accumulator (src/alos.py lines 147-166): a strictly
greater score replaces the current best. -/
def bestStep (acc : Option (List Char × Nat)) (blob : String) : Option (List Char × Nat) :=
  match blobScore blob with
  | none => acc
  | some (dc, sc) =>
    match acc with
    | none => some (dc, sc)
    | some (_, bs) => if bs < sc then some (dc, sc) else acc

/-- `_extract_payload_with_challenge(html)`: the final `best_payload or html`
keeps the original text when no candidate qualifies (an empty best payload is
falsy in Python, handled alike). -/
def extractPayload (html : String) : String :=
  match (candidateBlobs html).foldl bestStep none with
  | some (dc, _) => if dc.isEmpty then html else String.mk dc
  | none => html

/-! ## The variable discoverer (`_discover_vars`, src/alos.py lines 169-177) -/

/-- All `const name = "value"` declarations found in scan order. -/
def constPairs (text : List Char) : List (String × String) :=
  scanAllAux matchConstDecl (text.length + 1) text

/-- `_discover_vars(html)`: group the declarations by value length (groups
ordered by first occurrence, as Python dicts are), return the two names of
the first group of size exactly two.  A group of the defaultdict is exactly
the scan-ordered sublist of declarations sharing one value length, so groups
are represented by `filter` over the pair list. -/
def discoverVars (html : String) : Option String × Option String :=
  match (dedupFirst ((constPairs html.data).map (fun p => p.2.length))).find?
      (fun L => ((constPairs html.data).filter (fun p => p.2.length == L)).length == 2) with
  | some L =>
    match (constPairs html.data).filter (fun p => p.2.length == L) with
    | a :: b :: _ => (some a.1, some b.1)
    | _ => (none, none)
  | none => (none, none)

/-! ## Challenge-value extraction (src/alos.py lines 197-198)

The pattern `name\s*=\s*['\x22]([^\x22\n]+)['\x22]`: the greedy capture runs
to the next double quote or newline; backtracking then closes at that double
quote, or at the last single quote inside the run. -/

/-- Index of the last single quote in the run, if any. -/
def lastSqIdx (l : List Char) : Option Nat :=
  match (l.reverse.findIdx? (fun c => c == sq)) with
  | some k => some (l.length - 1 - k)
  | none => none

/-- Split the greedy run at its last single quote, requiring a nonempty
capture; returns the capture and the text after the closing quote. -/
def splitAtLastSq (run : List Char) : Option (List Char × List Char) :=
  match lastSqIdx run with
  | some j => if 1 ≤ j then some (run.take j, run.drop (j + 1)) else none
  | none => none

def matchValueAfterName (nameCs : List Char) (l : List Char) :
    Option (String × List Char) :=
  match expectChars nameCs l with
  | none => none
  | some l1 =>
    match l1.dropWhile isSpacePy with
    | '=' :: l2 =>
      match l2.dropWhile isSpacePy with
      | q1 :: l4 =>
        if isQuoteCh q1 then
          let pr := l4.span (fun c => !(c == dq) && !(c == nl))
          match pr.2 with
          | c :: rest2 =>
            if c == dq then
              if 1 ≤ pr.1.length then some (String.mk pr.1, rest2) else none
            else
              match splitAtLastSq pr.1 with
              | some (content, tailRun) =>
                  some (String.mk content, tailRun ++ pr.2)
              | none => none
          | [] =>
            match splitAtLastSq pr.1 with
            | some (content, tailRun) => some (String.mk content, tailRun)
            | none => none
        else none
      | [] => none
    | _ => none

/-- `re.search(rf"name\s*=\s*['\x22]([^\x22\n]+)['\x22]", payload)` returning
the first captured value. -/
def searchValue (name : String) (text : List Char) : Option String :=
  scanFirstAux (matchValueAfterName name.data) (text.length + 1) text

/-- `re.match(r"^(https?://[^/]+)", url)` (src/alos.py lines 203 and 249),
anchored at the start; `none` models the AttributeError the source raises on
a malformed URL. -/
def matchDomain (url : String) : Option String :=
  match expectChars "http".data url.data with
  | none => none
  | some l1 =>
    match l1 with
    | 's' :: l2 =>
      match expectChars "://".data l2 with
      | some l3 =>
        let host := l3.span (fun c => !(c == '/'))
        if host.1.isEmpty then none
        else some (String.mk ("https://".data ++ host.1))
      | none =>
        match expectChars "://".data l1 with
        | some l3 =>
          let host := l3.span (fun c => !(c == '/'))
          if host.1.isEmpty then none
          else some (String.mk ("http://".data ++ host.1))
        | none => none
    | _ =>
      match expectChars "://".data l1 with
      | some l3 =>
        let host := l3.span (fun c => !(c == '/'))
        if host.1.isEmpty then none
        else some (String.mk ("http://".data ++ host.1))
      | none => none

/-! ## The challenge orchestrator (`_solve_challenge`, src/alos.py lines 188-211)

State and effects are passed explicitly: the session cache
`self._cached_names` enters and leaves as a value, and the single possible
verification POST is reified in `verifyReq` (its URL and the two submitted
nonces).  The verification transport is abstracted by the `verifyRes`
parameter: `some status` for a response, `none` for a raised transport error
(the `except` on line 210).  An `outcome` of `none` models a run that never
returns: the unbounded proof-of-work search exceeding its fuel, or the
AttributeError on a malformed URL. -/

structure SCRes where
  outcome : Option (Bool × Bool)
  cacheAfter : Option (String × String)
  used : Option (String × String)
  verifyReq : Option (String × Nat × Nat)
deriving Repr, DecidableEq

/-- The tail of `_solve_challenge` once the names to use (`u`, the cached
pair when present, the freshly discovered one otherwise) and the resulting
cache content `cacheA` are fixed: extract both literal values, solve both
proofs, derive the origin and issue the verification call
(src/alos.py lines 197-211). -/
def afterNames (d fuel : Nat) (cacheA : Option (String × String))
    (u : String × String) (payload url : String) (verifyRes : Option Nat) : SCRes :=
  match searchValue u.1 payload.data, searchValue u.2 payload.data with
  | some v1, some v2 =>
    match solveProofM d fuel v1, solveProofM d fuel v2 with
    | some r1, some r2 =>
      match matchDomain url with
      | some dom =>
          ⟨some (true, verifyRes == some 200), cacheA, some u,
           some (dom ++ "/alosgg/verify", r1, r2)⟩
      | none => ⟨none, cacheA, some u, none⟩
    | _, _ => ⟨none, cacheA, some u, none⟩
  | _, _ => ⟨some (true, false), cacheA, some u, none⟩

/-- `_solve_challenge` on an already de-obfuscated payload: discovery, the
falsiness test of line 191, and the cache preference of lines 193-196. -/
def solveChallengeWith (d fuel : Nat) (cache : Option (String × String))
    (payload url : String) (verifyRes : Option Nat) : SCRes :=
  match discoverVars payload with
  | (some n1, some n2) =>
    if n1.isEmpty || n2.isEmpty then ⟨some (false, false), cache, none, none⟩
    else
      match cache with
      | some c => afterNames d fuel (some c) c payload url verifyRes
      | none => afterNames d fuel (some (n1, n2)) (n1, n2) payload url verifyRes
  | _ => ⟨some (false, false), cache, none, none⟩

def solveChallengeM (d fuel : Nat) (cache : Option (String × String))
    (rawHtml url : String) (verifyRes : Option Nat) : SCRes :=
  solveChallengeWith d fuel cache (extractPayload rawHtml) url verifyRes

/-- The session cache after a sequence of orchestrator runs, each input being
a response body, a URL and a verification result. -/
def runCache (d fuel : Nat) (cache : Option (String × String))
    (inputs : List (String × String × Option Nat)) : Option (String × String) :=
  inputs.foldl (fun c i => (solveChallengeM d fuel c i.1 i.2.1 i.2.2).cacheAfter) cache

/-! ## The request wrapper (`request`, src/alos.py lines 213-270)

The HTTP transport is abstracted by the `orig`, `verifyRes` and `retry`
parameters; every call the wrapper issues is recorded in `trace`.  The
randomly generated User-Agent is abstracted by the `ua` parameter.
`callerHeaders` is the content of the headers dictionary the caller passed
in, which the source mutates in place via `setdefault`; the model threads it
back explicitly.  A `none` result models a call that raises (malformed URL)
or never returns (solver out of fuel). -/

inductive NetCall where
  | version (url : String)
  | main (method url : String) (hdrs : List (String × String))
  | verify (url : String) (r1 r2 : Nat)
deriving Repr, DecidableEq

structure Resp where
  status : Nat
  body : String
  rhdrs : List (String × String)
deriving Repr, DecidableEq

structure ReqRes where
  final : Resp
  present : Bool
  solved : Bool
  cacheAfter : Option (String × String)
  callerHeaders : List (String × String)
  trace : List NetCall
deriving Repr, DecidableEq

/-- Python dict lookup (keys are unique; first match suffices). -/
def pyLookup : List (String × String) → String → Option String
  | [], _ => none
  | p :: t, k => if p.1 == k then some p.2 else pyLookup t k

/-- Python `dict.setdefault`: insert only when the key is absent. -/
def pySetdefault (d : List (String × String)) (k v : String) :
    List (String × String) :=
  match pyLookup d k with
  | some _ => d
  | none => d ++ [(k, v)]

/-- The fixed version-marker URL of the optional self-update check
(src/alos.py line 234). -/
def versionUrl : String :=
  "https://github.com/ImInTheICU/alos-gg-solver/raw/refs/heads/main/version.bin"

def requestM (d fuel : Nat) (cache : Option (String × String)) (versionCheck : Bool)
    (method url : String) (hdrs0 : List (String × String)) (ua : String)
    (orig : Resp) (verifyRes : Option Nat) (retry : Resp) : Option ReqRes :=
  let vcT : List NetCall := if versionCheck then [NetCall.version versionUrl] else []
  match matchDomain url with
  | none => none
  | some dom =>
    let hdrs := pySetdefault (pySetdefault hdrs0 "User-Agent" ua) "Referer" dom
    let sc := solveChallengeM d fuel cache orig.body url verifyRes
    match sc.outcome with
    | none => none
    | some (present, solved) =>
      let vT : List NetCall :=
        match sc.verifyReq with
        | some (vu, r1, r2) => [NetCall.verify vu r1 r2]
        | none => []
      let t1 := vcT ++ [NetCall.main method url hdrs] ++ vT
      if solved then
        some ⟨retry, true, true, sc.cacheAfter, hdrs,
              t1 ++ [NetCall.main method url hdrs]⟩
      else
        some ⟨orig, present, solved, sc.cacheAfter, hdrs, t1⟩

/-! ## Concrete inputs used by witnesses and counterexamples -/

/-- A one-character string holding the double-quote character. -/
def dqS : String := String.mk [dq]

/-- A one-character string holding the single-quote character. -/
def sqS : String := String.mk [sq]

/-- A response body with no challenge material at all. -/
def exPlainHtml : String := "hello world, nothing challenging here"

/-- A challenge page: two double-quoted constant declarations with values of
the same length 20. -/
def exChalHtml : String :=
  "const aaaa=" ++ dqS ++ "ABCDEFGHIJKLMNOPQRST" ++ dqS ++ "\nconst bbbb=" ++
    dqS ++ "abcdefghijklmnopqrst" ++ dqS ++ "\n"

/-- A second challenge page with different variable names, same scheme. -/
def exChalHtml2 : String :=
  "const cccc=" ++ dqS ++ "QRSTUVWXYZabcdefghij" ++ dqS ++ "\nconst eeee=" ++
    dqS ++ "qrstuvwxyzABCDEFGHIJ" ++ dqS ++ "\n"

/-- A well-formed request URL. -/
def exUrl : String := "https://example.com/page"

/-- Two single-quoted equal-length qualifying declarations and no double
quote anywhere. -/
def exSqHtml : String :=
  "const v1=" ++ sqS ++ "AAAAAAAAAABBBBBBBBBB" ++ sqS ++ " const v2=" ++ sqS ++
    "CCCCCCCCCCDDDDDDDDDD" ++ sqS

/-- An escape-decoding generation page: aliases of `unescape` and a
percent-encoded call argument, with no base64 blob anywhere. -/
def exUnescHtml : String :=
  "var a = unescape; var b = a; b(" ++ sqS ++ "%41%42%43" ++ sqS ++ ");"

/-- Two same-length qualifying declarations among decoys of other, pairwise
distinct lengths. -/
def exDiscHtml : String :=
  "const d1=" ++ dqS ++ "AAAAAAAAAABBBBBBBBBBC" ++ dqS ++ "\nconst p1=" ++ dqS ++
    "ABCDEFGHIJKLMNOPQRST" ++ dqS ++ "\nconst d2=" ++ dqS ++
    "AAAAAAAAAABBBBBBBBBBCDE" ++ dqS ++ "\nconst p2=" ++ dqS ++
    "abcdefghijklmnopqrst" ++ dqS ++ "\n"

/-- A base64 blob whose decoded text holds two qualifying constant
declarations followed by a line comment. -/
def exBlob : String :=
  "Y29uc3QgcXFxcT0iQUFBQUFBQUFBQUFBQUFBQUFBQUEiCmNvbnN0IHJycnI9IkJCQkJCQkJCQkJCQkJCQkJCQkJCIgovLyBub3RlCg=="

/-- A page carrying `exBlob` as a double-quoted literal. -/
def exBlobHtml : String := "x " ++ dqS ++ exBlob ++ dqS

/-- Exhaustive case analysis of the orchestrator outcome paired with whether
a verification call was issued. -/
theorem solveChallengeM_cases (d fuel : Nat) (cache : Option (String × String))
    (rawHtml url : String) (verifyRes : Option Nat) :
    ((solveChallengeM d fuel cache rawHtml url verifyRes).outcome = some (false, false) ∧
      (solveChallengeM d fuel cache rawHtml url verifyRes).verifyReq = none) ∨
    ((solveChallengeM d fuel cache rawHtml url verifyRes).outcome = some (true, false) ∧
      (solveChallengeM d fuel cache rawHtml url verifyRes).verifyReq = none) ∨
    ((solveChallengeM d fuel cache rawHtml url verifyRes).outcome =
        some (true, verifyRes == some 200) ∧
      (solveChallengeM d fuel cache rawHtml url verifyRes).verifyReq.isSome = true) ∨
    ((solveChallengeM d fuel cache rawHtml url verifyRes).outcome = none ∧
      (solveChallengeM d fuel cache rawHtml url verifyRes).verifyReq = none) := by
  unfold solveChallengeM solveChallengeWith afterNames
  repeat' split
  all_goals first
    | exact Or.inl ⟨rfl, rfl⟩
    | exact Or.inr (Or.inl ⟨rfl, rfl⟩)
    | exact Or.inr (Or.inr (Or.inl ⟨rfl, rfl⟩))
    | exact Or.inr (Or.inr (Or.inr ⟨rfl, rfl⟩))

/-! ## Claim C9 -/

/-- Claim C9: for every response body on which variable discovery returns
`(None, None)`, the orchestrator returns `(present=false, solved=false)` and
issues no verification network call. -/
theorem discovery_none_no_verify (d fuel : Nat) (cache : Option (String × String))
    (rawHtml url : String) (verifyRes : Option Nat)
    (h : discoverVars (extractPayload rawHtml) = (none, none)) :
    (solveChallengeM d fuel cache rawHtml url verifyRes).outcome = some (false, false) ∧
    (solveChallengeM d fuel cache rawHtml url verifyRes).verifyReq = none := by
  simp [solveChallengeM, solveChallengeWith, h]

/-- Witness for C9: a plain page with no challenge constants. -/
theorem discovery_none_no_verify_witness :
    (solveChallengeM 0 1 none exPlainHtml exUrl (some 200)).outcome = some (false, false) ∧
    (solveChallengeM 0 1 none exPlainHtml exUrl (some 200)).verifyReq = none :=
  discovery_none_no_verify 0 1 none exPlainHtml exUrl (some 200) (by decide)

/-! ## Claim C2 -/

/-- Counterexample to C2 as stated: on a challenge page with a failing
verification (HTTP 403) the orchestrator reports `solved = false` even though
a verification network call beyond the original request was issued. -/
theorem solved_false_after_verify_call_counterexample :
    (solveChallengeM 0 1 none exChalHtml exUrl (some 403)).outcome = some (true, false) ∧
    (solveChallengeM 0 1 none exChalHtml exUrl (some 403)).verifyReq.isSome = true := by
  decide

/-- Claim C2 (amended): `present = false` implies `solved = false`, and
`present = false` implies that no verification network call beyond the
original request occurred during challenge processing.  (The original claim
also asserted that `solved = false` alone rules out an extra call; the
counterexample above refutes that direction.) -/
theorem present_false_implies_unsolved_and_no_call (d fuel : Nat)
    (cache : Option (String × String)) (rawHtml url : String)
    (verifyRes : Option Nat) (s : Bool)
    (h : (solveChallengeM d fuel cache rawHtml url verifyRes).outcome = some (false, s)) :
    s = false ∧ (solveChallengeM d fuel cache rawHtml url verifyRes).verifyReq = none := by
  rcases solveChallengeM_cases d fuel cache rawHtml url verifyRes with
    ⟨h1, h2⟩ | ⟨h1, h2⟩ | ⟨h1, h2⟩ | ⟨h1, h2⟩ <;> simp_all

/-- Witness for the amended C2 at a concrete challenge-free page. -/
theorem present_false_implies_unsolved_and_no_call_witness :
    (false = false) ∧
    (solveChallengeM 0 1 none exPlainHtml exUrl (some 200)).verifyReq = none :=
  have h : (solveChallengeM 0 1 none exPlainHtml exUrl (some 200)).outcome =
      some (false, false) := by decide
  ⟨rfl, (present_false_implies_unsolved_and_no_call 0 1 none exPlainHtml exUrl
      (some 200) false h).2⟩

/-! ## Claim C7 -/

/-- Claim C7: whenever the orchestrator reaches the verification step, an
HTTP 200 yields `(present=true, solved=true)`, while any non-200 status or a
transport failure (`verifyRes = none`) yields `(present=true, solved=false)`;
the run still returns an outcome (`some`), i.e. the failure is not propagated
as an exception. -/
theorem verify_status_interpretation (d fuel : Nat)
    (cache : Option (String × String)) (rawHtml url : String)
    (verifyRes : Option Nat)
    (h : (solveChallengeM d fuel cache rawHtml url verifyRes).verifyReq.isSome = true) :
    (solveChallengeM d fuel cache rawHtml url verifyRes).outcome =
      some (true, verifyRes == some 200) := by
  rcases solveChallengeM_cases d fuel cache rawHtml url verifyRes with
    ⟨h1, h2⟩ | ⟨h1, h2⟩ | ⟨h1, h2⟩ | ⟨h1, h2⟩ <;> simp_all

/-- Witness for C7: the verification step is reached and a 403 status yields
`(true, false)`. -/
theorem verify_status_interpretation_witness :
    (solveChallengeM 0 1 none exChalHtml exUrl (some 403)).outcome =
      some (true, (some 403 : Option Nat) == some 200) :=
  verify_status_interpretation 0 1 none exChalHtml exUrl (some 403) (by decide)

/-! ## Claim C3 -/

/-- An existing cache value survives any single orchestrator run. -/
theorem cacheAfter_of_some (d fuel : Nat) (p : String × String) (rawHtml url : String)
    (verifyRes : Option Nat) :
    (solveChallengeM d fuel (some p) rawHtml url verifyRes).cacheAfter = some p := by
  unfold solveChallengeM solveChallengeWith afterNames
  repeat' split
  all_goals simp_all

/-- An existing cache value survives any sequence of orchestrator runs. -/
theorem runCache_of_some (d fuel : Nat) (p : String × String) :
    ∀ seq, runCache d fuel (some p) seq = some p := by
  intro seq
  induction seq with
  | nil => rfl
  | cons i t ih =>
    simp only [runCache, List.foldl_cons, cacheAfter_of_some] at ih ⊢
    exact ih

/-- With a cached pair and a successful fresh discovery, the cached names are
the ones used. -/
theorem used_of_some_on_discovery (d fuel : Nat) (p : String × String)
    (rawHtml url : String) (verifyRes : Option Nat) (n1 n2 : String)
    (h : discoverVars (extractPayload rawHtml) = (some n1, some n2))
    (h1 : n1.isEmpty = false) (h2 : n2.isEmpty = false) :
    (solveChallengeM d fuel (some p) rawHtml url verifyRes).used = some p := by
  unfold solveChallengeM solveChallengeWith
  rw [h]
  simp only [h1, h2, Bool.or_self, if_neg]
  unfold afterNames
  repeat' split
  all_goals simp_all

/-- With an empty cache, a successful discovery assigns the cache and the
discovered names are the ones used. -/
theorem cache_assigned_on_discovery (d fuel : Nat) (rawHtml url : String)
    (verifyRes : Option Nat) (n1 n2 : String)
    (h : discoverVars (extractPayload rawHtml) = (some n1, some n2))
    (h1 : n1.isEmpty = false) (h2 : n2.isEmpty = false) :
    (solveChallengeM d fuel none rawHtml url verifyRes).cacheAfter = some (n1, n2) ∧
    (solveChallengeM d fuel none rawHtml url verifyRes).used = some (n1, n2) := by
  unfold solveChallengeM solveChallengeWith
  rw [h]
  constructor <;>
    (unfold afterNames; repeat' split) <;> try rfl
  all_goals simp_all

/-- With an empty cache and failed discovery, no assignment happens. -/
theorem cache_unassigned_without_discovery (d fuel : Nat) (rawHtml url : String)
    (verifyRes : Option Nat)
    (h : discoverVars (extractPayload rawHtml) = (none, none)) :
    (solveChallengeM d fuel none rawHtml url verifyRes).cacheAfter = none := by
  simp [solveChallengeM, solveChallengeWith, h]

/-- Claim C3: on one client instance the cached variable-name pair is assigned
at most once, by the first successful discovery: an existing cache survives
every later run (also across any sequence of runs), later challenges use the
cached pair in preference to freshly discovered names, an empty cache is
assigned exactly the discovered pair on a successful discovery, and stays
empty when discovery fails. -/
theorem cache_single_assignment (d fuel : Nat) (p : String × String) :
    (∀ seq, runCache d fuel (some p) seq = some p) ∧
    (∀ rawHtml url verifyRes,
       (solveChallengeM d fuel (some p) rawHtml url verifyRes).cacheAfter = some p) ∧
    (∀ rawHtml url verifyRes n1 n2,
       discoverVars (extractPayload rawHtml) = (some n1, some n2) →
       n1.isEmpty = false → n2.isEmpty = false →
       (solveChallengeM d fuel (some p) rawHtml url verifyRes).used = some p) ∧
    (∀ rawHtml url verifyRes n1 n2,
       discoverVars (extractPayload rawHtml) = (some n1, some n2) →
       n1.isEmpty = false → n2.isEmpty = false →
       (solveChallengeM d fuel none rawHtml url verifyRes).cacheAfter = some (n1, n2) ∧
       (solveChallengeM d fuel none rawHtml url verifyRes).used = some (n1, n2)) ∧
    (∀ rawHtml url verifyRes,
       discoverVars (extractPayload rawHtml) = (none, none) →
       (solveChallengeM d fuel none rawHtml url verifyRes).cacheAfter = none) :=
  ⟨runCache_of_some d fuel p,
   fun rawHtml url verifyRes => cacheAfter_of_some d fuel p rawHtml url verifyRes,
   fun rawHtml url verifyRes n1 n2 h h1 h2 =>
     used_of_some_on_discovery d fuel p rawHtml url verifyRes n1 n2 h h1 h2,
   fun rawHtml url verifyRes n1 n2 h h1 h2 =>
     cache_assigned_on_discovery d fuel rawHtml url verifyRes n1 n2 h h1 h2,
   fun rawHtml url verifyRes h =>
     cache_unassigned_without_discovery d fuel rawHtml url verifyRes h⟩

/-- Witness for C3: a session that cached `(aaaa, bbbb)` keeps it across a
later challenge page with different names and uses the cached pair there; a
fresh session assigns the cache on the first challenge page and leaves it
empty on a plain page. -/
theorem cache_single_assignment_witness :
    runCache 0 1 (some ("aaaa", "bbbb"))
        [(exChalHtml2, exUrl, some 200), (exPlainHtml, exUrl, some 200)] =
      some ("aaaa", "bbbb") ∧
    (solveChallengeM 0 1 (some ("aaaa", "bbbb")) exChalHtml2 exUrl (some 200)).used =
      some ("aaaa", "bbbb") ∧
    (solveChallengeM 0 1 none exChalHtml exUrl (some 200)).cacheAfter =
      some ("aaaa", "bbbb") ∧
    (solveChallengeM 0 1 none exPlainHtml exUrl (some 200)).cacheAfter = none :=
  ⟨(cache_single_assignment 0 1 ("aaaa", "bbbb")).1 _,
   (cache_single_assignment 0 1 ("aaaa", "bbbb")).2.2.1 exChalHtml2 exUrl (some 200)
     "cccc" "eeee" (by decide) (by decide) (by decide),
   ((cache_single_assignment 0 1 ("aaaa", "bbbb")).2.2.2.1 exChalHtml exUrl (some 200)
     "aaaa" "bbbb" (by decide) (by decide) (by decide)).1,
   (cache_single_assignment 0 1 ("aaaa", "bbbb")).2.2.2.2 exPlainHtml exUrl (some 200)
     (by decide)⟩

/-! ## Claim C4 -/

/-- Counterexample to C4 as stated: on a page of the escape-decoding
generation — names bound to `unescape`, an alias of such a name, and a call
passing a percent-encoded literal — `_extract_payload_with_challenge`
performs no alias closure and no percent-decoding at all: it returns the
input unchanged, and the percent-decoded content (`ABC`) appears nowhere in
the result. -/
theorem escape_decoding_unsupported_counterexample :
    "unescape".data <:+: exUnescHtml.data ∧
    extractPayload exUnescHtml = exUnescHtml ∧
    ¬("ABC".data <:+: (extractPayload exUnescHtml).data) := by
  decide

/-- Folding the best-candidate accumulator over blobs none of which scores
leaves the accumulator unchanged. -/
theorem foldl_bestStep_all_none :
    ∀ (l : List String) (acc : Option (List Char × Nat)),
      (∀ b ∈ l, blobScore b = none) → l.foldl bestStep acc = acc := by
  intro l
  induction l with
  | nil => intro acc _; rfl
  | cons x xs ih =>
    intro acc h
    have hx : blobScore x = none := h x (List.mem_cons_self x xs)
    have hstep : bestStep acc x = acc := by simp [bestStep, hx]
    simp only [List.foldl_cons, hstep]
    exact ih acc (fun b hb => h b (List.mem_cons_of_mem x hb))

/-- Claim C4 (amended): the de-obfuscation engine has no escape-decoding
step: no alias closure over unescape-bound names and no percent-decoding is
performed; on any input whose candidate blobs all fail to qualify — in
particular on escape-decoding generation pages, which contribute no base64
blobs — the input text is returned unchanged. -/
theorem extract_returns_input_when_no_qualifier (html : String)
    (h : ∀ b ∈ candidateBlobs html, blobScore b = none) :
    extractPayload html = html := by
  unfold extractPayload
  rw [foldl_bestStep_all_none (candidateBlobs html) none h]

/-- Witness for the amended C4 at the escape-decoding generation page. -/
theorem extract_returns_input_when_no_qualifier_witness :
    extractPayload exUnescHtml = exUnescHtml :=
  extract_returns_input_when_no_qualifier exUnescHtml (by decide)

/-! ## Claim C5 -/

/-- Counterexample to C5 as stated: `exBlob` is the single candidate blob of
`exBlobHtml`, it decodes, its decoded text contains two embedded constant
declarations (so the claim predicts the decoded text as the returned
surface), yet the extractor returns something different from the decoded
text — namely its comment-stripped form. -/
theorem blob_scoring_counterexample :
    candidateBlobs exBlobHtml = [exBlob] ∧
    (b64decodePy exBlob).isSome = true ∧
    2 ≤ constCount (utf8DecodeIgnore ((b64decodePy exBlob).getD [])) ∧
    extractPayload exBlobHtml ≠
      String.mk (utf8DecodeIgnore ((b64decodePy exBlob).getD [])) := by
  decide

/-- A present accumulator value never loses to the step: the result score
dominates it. -/
theorem bestStep_ge_acc (acc : Option (List Char × Nat)) (x : String)
    (dca : List Char) (sca : Nat) (ha : acc = some (dca, sca)) :
    ∃ dc2 sc2, bestStep acc x = some (dc2, sc2) ∧ sca ≤ sc2 := by
  subst ha
  cases hbx : blobScore x with
  | none => exact ⟨dca, sca, by simp [bestStep, hbx], Nat.le_refl _⟩
  | some p =>
    obtain ⟨dc, sc⟩ := p
    by_cases hlt : sca < sc
    · exact ⟨dc, sc, by simp [bestStep, hbx, hlt], Nat.le_of_lt hlt⟩
    · exact ⟨dca, sca, by simp [bestStep, hbx, hlt], Nat.le_refl _⟩

/-- A scoring blob never loses to the accumulator: the result score
dominates it. -/
theorem bestStep_ge_new (acc : Option (List Char × Nat)) (x : String)
    (dc : List Char) (sc : Nat) (hbx : blobScore x = some (dc, sc)) :
    ∃ dc2 sc2, bestStep acc x = some (dc2, sc2) ∧ sc ≤ sc2 := by
  cases acc with
  | none => exact ⟨dc, sc, by simp [bestStep, hbx], Nat.le_refl _⟩
  | some q =>
    obtain ⟨dca, sca⟩ := q
    by_cases hlt : sca < sc
    · exact ⟨dc, sc, by simp [bestStep, hbx, hlt], Nat.le_refl _⟩
    · exact ⟨dca, sca, by simp [bestStep, hbx, hlt], Nat.le_of_not_lt hlt⟩

/-- The accumulator after one step came from the old accumulator or from the
blob just examined. -/
theorem bestStep_provenance (acc : Option (List Char × Nat)) (x : String)
    (dcr : List Char) (scr : Nat) (hr : bestStep acc x = some (dcr, scr)) :
    acc = some (dcr, scr) ∨ blobScore x = some (dcr, scr) := by
  unfold bestStep at hr
  split at hr
  · exact Or.inl hr
  next dc sc heqs =>
    split at hr
    · exact Or.inr (hr ▸ heqs)
    next dca bs =>
      split at hr
      · exact Or.inr (hr ▸ heqs)
      · exact Or.inl hr

/-- The best-candidate fold dominates the initial accumulator and every
scoring blob of the list, and its value, when present, is the initial
accumulator or the score of a member. -/
theorem foldl_bestStep_spec :
    ∀ (l : List String) (acc : Option (List Char × Nat)),
      (∀ dca sca, acc = some (dca, sca) →
        ∃ dcr scr, l.foldl bestStep acc = some (dcr, scr) ∧ sca ≤ scr) ∧
      (∀ b ∈ l, ∀ dc sc, blobScore b = some (dc, sc) →
        ∃ dcr scr, l.foldl bestStep acc = some (dcr, scr) ∧ sc ≤ scr) ∧
      (∀ dcr scr, l.foldl bestStep acc = some (dcr, scr) →
        acc = some (dcr, scr) ∨ ∃ b ∈ l, blobScore b = some (dcr, scr)) := by
  intro l
  induction l with
  | nil =>
    intro acc
    refine ⟨?_, ?_, ?_⟩
    · intro dca sca ha; exact ⟨dca, sca, ha, Nat.le_refl _⟩
    · intro b hb; cases hb
    · intro dcr scr hr; exact Or.inl hr
  | cons x xs ih =>
    intro acc
    refine ⟨?_, ?_, ?_⟩
    · intro dca sca ha
      obtain ⟨dc2, sc2, hstep, hle1⟩ := bestStep_ge_acc acc x dca sca ha
      obtain ⟨dcr, scr, hres, hle2⟩ := (ih (bestStep acc x)).1 dc2 sc2 hstep
      exact ⟨dcr, scr, by simpa using hres, Nat.le_trans hle1 hle2⟩
    · intro b hb dc sc hbs
      rcases List.mem_cons.mp hb with hbx | hbxs
      · subst hbx
        obtain ⟨dc2, sc2, hstep, hle1⟩ := bestStep_ge_new acc b dc sc hbs
        obtain ⟨dcr, scr, hres, hle2⟩ := (ih (bestStep acc b)).1 dc2 sc2 hstep
        exact ⟨dcr, scr, by simpa using hres, Nat.le_trans hle1 hle2⟩
      · obtain ⟨dcr, scr, hres, hle⟩ := (ih (bestStep acc x)).2.1 b hbxs dc sc hbs
        exact ⟨dcr, scr, by simpa using hres, hle⟩
    · intro dcr scr hr
      rcases (ih (bestStep acc x)).2.2 dcr scr (by simpa using hr) with hstep | ⟨b, hbm, hbs⟩
      · rcases bestStep_provenance acc x dcr scr hstep with hacc | hx
        · exact Or.inl hacc
        · exact Or.inr ⟨x, List.mem_cons_self x xs, hx⟩
      · exact Or.inr ⟨b, List.mem_cons_of_mem x hbm, hbs⟩

/-- Claim C5 (amended): the extractor scores every decodable candidate blob
on the comment-stripped decoded text — declaration count times 10000 plus the
length of the stripped text — disqualifies blobs with fewer than two
declarations, and returns the comment-stripped decoded text of a
maximal-scoring qualifying blob (the original input when that text is empty,
Python falsiness); when no blob qualifies the original input is returned
unchanged (the preceding theorem). -/
theorem extract_returns_best_scoring_blob (html : String) (b0 : String)
    (hb0 : b0 ∈ candidateBlobs html) (hq : (blobScore b0).isSome = true) :
    ∃ b ∈ candidateBlobs html, ∃ dc sc, blobScore b = some (dc, sc) ∧
      (∀ b2 ∈ candidateBlobs html, ∀ dc2 sc2, blobScore b2 = some (dc2, sc2) → sc2 ≤ sc) ∧
      extractPayload html = (if dc.isEmpty then html else String.mk dc) := by
  obtain ⟨p0, h0⟩ := Option.isSome_iff_exists.mp hq
  obtain ⟨dc0, sc0⟩ := p0
  obtain ⟨hge_acc, hge_mem, hprov⟩ := foldl_bestStep_spec (candidateBlobs html) none
  obtain ⟨dcr, scr, hres, _⟩ := hge_mem b0 hb0 dc0 sc0 h0
  rcases hprov dcr scr hres with hacc | ⟨b, hbmem, hbscore⟩
  · cases hacc
  · refine ⟨b, hbmem, dcr, scr, hbscore, ?_, ?_⟩
    · intro b2 hb2 dc2 sc2 h2
      obtain ⟨dcr2, scr2, hres2, hle2⟩ := hge_mem b2 hb2 dc2 sc2 h2
      rw [hres] at hres2
      cases hres2
      exact hle2
    · unfold extractPayload
      rw [hres]

/-- Witness for the amended C5: on `exBlobHtml` the single qualifying blob
wins and the extractor returns its comment-stripped decoded text. -/
theorem extract_returns_best_scoring_blob_witness :
    ∃ b ∈ candidateBlobs exBlobHtml, ∃ dc sc, blobScore b = some (dc, sc) ∧
      (∀ b2 ∈ candidateBlobs exBlobHtml, ∀ dc2 sc2,
        blobScore b2 = some (dc2, sc2) → sc2 ≤ sc) ∧
      extractPayload exBlobHtml = (if dc.isEmpty then exBlobHtml else String.mk dc) :=
  extract_returns_best_scoring_blob exBlobHtml exBlob (by decide) (by decide)

/-! ## Claim C6 -/

/-- Counterexample to C6 as stated: `exSqHtml` contains no double quote at
all — hence zero qualifying declarations under the claim reading that a
qualifying declaration binds a double-quoted literal — yet the discoverer
returns a pair, because the source regex accepts single quotes as well. -/
theorem discover_single_quote_counterexample :
    exSqHtml.data.contains dq = false ∧
    discoverVars exSqHtml = (some "v1", some "v2") := by
  decide

/-- `find?` returns the unique satisfier of its predicate when that
satisfier is a member. -/
theorem find?_of_unique {α : Type} (q : α → Bool) (a : α) :
    ∀ xs : List α, a ∈ xs → q a = true → (∀ x ∈ xs, q x = true → x = a) →
      xs.find? q = some a := by
  intro xs
  induction xs with
  | nil => intro h; cases h
  | cons x t ih =>
    intro hmem hqa huniq
    by_cases hqx : q x = true
    · have hxa : x = a := huniq x (List.mem_cons_self x t) hqx
      rw [List.find?_cons_of_pos _ hqx, hxa]
    · have hmem2 : a ∈ t := by
        rcases List.mem_cons.mp hmem with rfl | h
        · exact absurd hqa hqx
        · exact h
      rw [List.find?_cons_of_neg _ hqx]
      exact ih hmem2 hqa (fun y hy hqy => huniq y (List.mem_cons_of_mem x hy) hqy)

/-- A member of the input is a member of the deduplicated list, unless it
was already among the seen elements. -/
theorem mem_dedupAux_of_mem {α : Type} [BEq α] [LawfulBEq α] :
    ∀ (l seen : List α) (x : α), x ∈ l →
      x ∈ dedupAux seen l ∨ seen.contains x = true := by
  intro l
  induction l with
  | nil => intro seen x h; cases h
  | cons y t ih =>
    intro seen x hx
    unfold dedupAux
    by_cases hy : seen.contains y = true
    · rw [if_pos hy]
      rcases List.mem_cons.mp hx with rfl | h
      · exact Or.inr hy
      · exact ih seen x h
    · rw [if_neg hy]
      rcases List.mem_cons.mp hx with rfl | h
      · exact Or.inl (List.mem_cons_self _ _)
      · rcases ih (y :: seen) x h with hin | hc
        · exact Or.inl (List.mem_cons_of_mem _ hin)
        · rw [List.contains_cons] at hc
          simp only [Bool.or_eq_true, beq_iff_eq] at hc
          rcases hc with rfl | h2
          · exact Or.inl (List.mem_cons_self _ _)
          · exact Or.inr h2

/-- Deduplication introduces no new elements. -/
theorem mem_of_mem_dedupAux {α : Type} [BEq α] :
    ∀ (l seen : List α) (x : α), x ∈ dedupAux seen l → x ∈ l := by
  intro l
  induction l with
  | nil => intro seen x h; simp [dedupAux] at h
  | cons y t ih =>
    intro seen x h
    unfold dedupAux at h
    by_cases hy : seen.contains y = true
    · rw [if_pos hy] at h
      exact List.mem_cons_of_mem y (ih seen x h)
    · rw [if_neg hy] at h
      rcases List.mem_cons.mp h with rfl | h2
      · exact List.mem_cons_self _ _
      · exact List.mem_cons_of_mem y (ih (y :: seen) x h2)

/-- Claim C6 (amended): with a qualifying declaration being any name bound
to a quoted (single or double, possibly mismatched) literal over
`[A-Za-z0-9+/=]` of length at least 20 — exactly the matches of the source
regex — the discoverer returns `(None, None)` for every text containing at
most one qualifying declaration, and returns the two names, in scan order,
of the unique length group of size exactly two when every other length group
has at most one member. -/
theorem discover_pair_selection (html : String) :
    ((constPairs html.data).length ≤ 1 → discoverVars html = (none, none)) ∧
    (∀ (L : Nat) (a b : String × String),
       (constPairs html.data).filter (fun p => p.2.length == L) = [a, b] →
       (∀ L2 ∈ (constPairs html.data).map (fun p => p.2.length), L2 ≠ L →
         ((constPairs html.data).filter (fun p => p.2.length == L2)).length ≤ 1) →
       discoverVars html = (some a.1, some b.1)) := by
  constructor
  · intro hlen
    unfold discoverVars
    have hfind : (dedupFirst ((constPairs html.data).map (fun p => p.2.length))).find?
        (fun L => ((constPairs html.data).filter
          (fun p => p.2.length == L)).length == 2) = none := by
      rw [List.find?_eq_none]
      intro L _
      have hle := List.length_filter_le (fun p => p.2.length == L) (constPairs html.data)
      have h1 : ((constPairs html.data).filter
          (fun p => p.2.length == L)).length ≤ 1 := Nat.le_trans hle hlen
      simp only [beq_iff_eq]
      omega
    rw [hfind]
  · intro L a b hfilter huniq
    have hqL : (((constPairs html.data).filter
        (fun p => p.2.length == L)).length == 2) = true := by
      rw [hfilter]; rfl
    have hamem2 : a ∈ (constPairs html.data).filter (fun p => p.2.length == L) := by
      rw [hfilter]; exact List.mem_cons_self _ _
    have haL : a.2.length = L := by
      have := List.of_mem_filter hamem2
      simpa using this
    have hamem : a ∈ constPairs html.data := List.mem_of_mem_filter hamem2
    have hLmem : L ∈ (constPairs html.data).map (fun p => p.2.length) :=
      haL ▸ List.mem_map_of_mem (fun p => p.2.length) hamem
    have hLdedup : L ∈ dedupFirst ((constPairs html.data).map (fun p => p.2.length)) := by
      rcases mem_dedupAux_of_mem _ [] L hLmem with h | h
      · exact h
      · simp [List.contains_cons] at h
    have huq : ∀ L2 ∈ dedupFirst ((constPairs html.data).map (fun p => p.2.length)),
        (((constPairs html.data).filter
          (fun p => p.2.length == L2)).length == 2) = true → L2 = L := by
      intro L2 hL2 hq2
      by_contra hne
      have hL2m : L2 ∈ (constPairs html.data).map (fun p => p.2.length) :=
        mem_of_mem_dedupAux _ [] L2 hL2
      have hle1 := huniq L2 hL2m hne
      simp only [beq_iff_eq] at hq2
      omega
    have hfind := find?_of_unique _ L _ hLdedup hqL huq
    unfold discoverVars
    simp only [hfind, hfilter]

/-- Witness for the amended C6: a challenge-free page yields `(None, None)`;
among two decoys of distinct other lengths, the unique equal-length pair is
returned in scan order. -/
theorem discover_pair_selection_witness :
    discoverVars exPlainHtml = (none, none) ∧
    discoverVars exDiscHtml = (some "p1", some "p2") :=
  ⟨(discover_pair_selection exPlainHtml).1 (by decide),
   (discover_pair_selection exDiscHtml).2 20 ("p1", "ABCDEFGHIJKLMNOPQRST")
     ("p2", "abcdefghijklmnopqrst") (by decide) (by decide)⟩

/-! ## Claim C8 -/

def dummyResp : Resp := ⟨0, "", []⟩

def dummyReqRes : ReqRes := ⟨dummyResp, false, false, none, [], []⟩

def isMainCall : NetCall → Bool
  | NetCall.main _ _ _ => true
  | _ => false

def isVerifyCall : NetCall → Bool
  | NetCall.verify _ _ _ => true
  | _ => false

/-- A solved outcome can only arise from the verification branch, so the
verification request is present. -/
theorem verify_present_when_solved (d fuel : Nat) (cache : Option (String × String))
    (rawHtml url : String) (verifyRes : Option Nat) (pr : Bool)
    (h : (solveChallengeM d fuel cache rawHtml url verifyRes).outcome = some (pr, true)) :
    (solveChallengeM d fuel cache rawHtml url verifyRes).verifyReq.isSome = true := by
  rcases solveChallengeM_cases d fuel cache rawHtml url verifyRes with
    ⟨h1, h2⟩ | ⟨h1, h2⟩ | ⟨h1, h2⟩ | ⟨h1, h2⟩ <;> simp_all

/-- Claim C8: when the challenge is solved the wrapper issues the identical
original main request exactly once more (same method, URL and headers — not
the verification request), returns the replayed response as the final one and
reports both captcha flags true; when not solved no replay occurs (exactly
one main request in the trace); in every case at most one verification call
appears in the trace (no re-verification of the replay). -/
theorem request_replays_once (d fuel : Nat) (cache : Option (String × String))
    (vc : Bool) (method url : String) (hdrs0 : List (String × String)) (ua : String)
    (orig : Resp) (verifyRes : Option Nat) (retry : Resp) (out : ReqRes)
    (h : requestM d fuel cache vc method url hdrs0 ua orig verifyRes retry = some out) :
    (out.solved = true →
       ∃ hs1 vu r1 r2, out.trace =
           (if vc then [NetCall.version versionUrl] else []) ++
             [NetCall.main method url hs1, NetCall.verify vu r1 r2,
              NetCall.main method url hs1] ∧
         out.final = retry ∧ out.present = true) ∧
    (out.solved = false →
       out.final = orig ∧ (out.trace.filter isMainCall).length = 1) ∧
    (out.trace.filter isVerifyCall).length ≤ 1 := by
  simp only [requestM] at h
  cases hdom : matchDomain url with
  | none => rw [hdom] at h; simp at h
  | some dom =>
    rw [hdom] at h
    cases hout : (solveChallengeM d fuel cache orig.body url verifyRes).outcome with
    | none => rw [hout] at h; simp at h
    | some pr =>
      obtain ⟨present, solved⟩ := pr
      rw [hout] at h
      cases hvr : (solveChallengeM d fuel cache orig.body url verifyRes).verifyReq with
      | none =>
        rw [hvr] at h
        cases solved with
        | true =>
          have hv := verify_present_when_solved d fuel cache orig.body url verifyRes
            present hout
          rw [hvr] at hv
          simp at hv
        | false =>
          simp only [Bool.false_eq_true, if_false] at h
          cases h
          refine ⟨fun hc => by simp at hc, fun _ => ⟨rfl, ?_⟩, ?_⟩
          · cases vc <;> simp [isMainCall]
          · cases vc <;> simp [isVerifyCall]
      | some v3 =>
        obtain ⟨vu, r1, r2⟩ := v3
        rw [hvr] at h
        cases solved with
        | true =>
          simp only [if_true] at h
          cases h
          refine ⟨fun _ => ⟨pySetdefault (pySetdefault hdrs0 "User-Agent" ua)
              "Referer" dom, vu, r1, r2, by simp, rfl, rfl⟩,
            fun hc => by simp at hc, ?_⟩
          cases vc <;> simp [isVerifyCall]
        | false =>
          simp only [Bool.false_eq_true, if_false] at h
          cases h
          refine ⟨fun hc => by simp at hc, fun _ => ⟨rfl, ?_⟩, ?_⟩
          · cases vc <;> simp [isMainCall]
          · cases vc <;> simp [isVerifyCall]

/-- Witness for C8 at a solved challenge (difficulty 0, verification 200):
the wrapper replays and the trace is main-verify-main, and at an unsolved
plain page: no replay. -/
theorem request_replays_once_witness :
    (((requestM 0 1 none false "GET" exUrl [] "ua" ⟨200, exChalHtml, []⟩
        (some 200) ⟨200, "fine", []⟩).getD dummyReqRes).solved = true →
      ∃ hs1 vu r1 r2,
        ((requestM 0 1 none false "GET" exUrl [] "ua" ⟨200, exChalHtml, []⟩
          (some 200) ⟨200, "fine", []⟩).getD dummyReqRes).trace =
          (if false then [NetCall.version versionUrl] else []) ++
            [NetCall.main "GET" exUrl hs1, NetCall.verify vu r1 r2,
             NetCall.main "GET" exUrl hs1] ∧
        ((requestM 0 1 none false "GET" exUrl [] "ua" ⟨200, exChalHtml, []⟩
          (some 200) ⟨200, "fine", []⟩).getD dummyReqRes).final = ⟨200, "fine", []⟩ ∧
        ((requestM 0 1 none false "GET" exUrl [] "ua" ⟨200, exChalHtml, []⟩
          (some 200) ⟨200, "fine", []⟩).getD dummyReqRes).present = true) ∧
    (((requestM 0 1 none false "GET" exUrl [] "ua" ⟨200, exPlainHtml, []⟩
        (some 200) ⟨200, "fine", []⟩).getD dummyReqRes).solved = false →
      ((requestM 0 1 none false "GET" exUrl [] "ua" ⟨200, exPlainHtml, []⟩
        (some 200) ⟨200, "fine", []⟩).getD dummyReqRes).final = ⟨200, exPlainHtml, []⟩ ∧
      (((requestM 0 1 none false "GET" exUrl [] "ua" ⟨200, exPlainHtml, []⟩
        (some 200) ⟨200, "fine", []⟩).getD dummyReqRes).trace.filter
          isMainCall).length = 1) :=
  ⟨(request_replays_once 0 1 none false "GET" exUrl [] "ua" ⟨200, exChalHtml, []⟩
      (some 200) ⟨200, "fine", []⟩ _ (by decide)).1,
   (request_replays_once 0 1 none false "GET" exUrl [] "ua" ⟨200, exPlainHtml, []⟩
      (some 200) ⟨200, "fine", []⟩ _ (by decide)).2.1⟩

/-! ## Claim C10 -/

/-- Looking a key up in an extended dictionary finds the old value. -/
theorem pyLookup_append_of_some (d1 : List (String × String)) (e : String × String)
    (k w : String) (h : pyLookup d1 k = some w) : pyLookup (d1 ++ [e]) k = some w := by
  induction d1 with
  | nil => cases h
  | cons p t ih =>
    by_cases hpk : (p.1 == k) = true
    · simp only [pyLookup, hpk, if_true] at h ⊢
      exact h
    · simp only [pyLookup, hpk, if_false, List.cons_append] at h ⊢
      exact ih h

/-- Looking up a key absent from the prefix falls through to the extension. -/
theorem pyLookup_append_of_none (d1 : List (String × String)) (e : String × String)
    (k : String) (h : pyLookup d1 k = none) :
    pyLookup (d1 ++ [e]) k = pyLookup [e] k := by
  induction d1 with
  | nil => rfl
  | cons p t ih =>
    by_cases hpk : (p.1 == k) = true
    · simp only [pyLookup, hpk, if_true] at h
      exact Option.noConfusion h
    · simp only [pyLookup, hpk, if_false] at h
      simp only [List.cons_append, pyLookup, hpk, if_false]
      exact ih h

/-- `setdefault` preserves every present entry. -/
theorem pyLookup_pySetdefault_of_some (dct : List (String × String)) (k2 v2 k w : String)
    (h : pyLookup dct k = some w) : pyLookup (pySetdefault dct k2 v2) k = some w := by
  unfold pySetdefault
  cases hk2 : pyLookup dct k2 with
  | some _ => exact h
  | none => exact pyLookup_append_of_some dct (k2, v2) k w h

/-- `setdefault` inserts an absent key. -/
theorem pyLookup_pySetdefault_insert (dct : List (String × String)) (k v : String)
    (h : pyLookup dct k = none) : pyLookup (pySetdefault dct k v) k = some v := by
  unfold pySetdefault
  rw [h]
  rw [pyLookup_append_of_none dct (k, v) k h]
  simp [pyLookup]

/-- `setdefault` of a different key leaves an absent key absent. -/
theorem pyLookup_pySetdefault_of_none_ne (dct : List (String × String)) (k2 v2 k : String)
    (h : pyLookup dct k = none) (hne : (k2 == k) = false) :
    pyLookup (pySetdefault dct k2 v2) k = none := by
  unfold pySetdefault
  cases hk2 : pyLookup dct k2 with
  | some _ => exact h
  | none =>
    rw [pyLookup_append_of_none dct (k2, v2) k h]
    simp [pyLookup, hne]

/-- In every returning run the caller-visible headers dictionary is the
original one passed through the two `setdefault` calls. -/
theorem requestM_callerHeaders (d fuel : Nat) (cache : Option (String × String))
    (vc : Bool) (method url : String) (hdrs0 : List (String × String)) (ua : String)
    (orig : Resp) (verifyRes : Option Nat) (retry : Resp) (out : ReqRes)
    (h : requestM d fuel cache vc method url hdrs0 ua orig verifyRes retry = some out) :
    ∃ dom, matchDomain url = some dom ∧
      out.callerHeaders = pySetdefault (pySetdefault hdrs0 "User-Agent" ua)
        "Referer" dom := by
  simp only [requestM] at h
  cases hdom : matchDomain url with
  | none => rw [hdom] at h; simp at h
  | some dom =>
    rw [hdom] at h
    cases hout : (solveChallengeM d fuel cache orig.body url verifyRes).outcome with
    | none => rw [hout] at h; simp at h
    | some pr =>
      obtain ⟨present, solved⟩ := pr
      rw [hout] at h
      cases solved with
      | true =>
        simp only [if_true] at h
        cases h
        exact ⟨dom, rfl, rfl⟩
      | false =>
        simp only [Bool.false_eq_true, if_false] at h
        cases h
        exact ⟨dom, rfl, rfl⟩

/-- Claim C10: the wrapper mutates the headers dictionary the caller passed
in — modelled by threading the dictionary contents back to the caller —
inserting `User-Agent` (the generated value) and `Referer` (the request
origin) when those keys are absent, and leaving every entry the caller
supplied unchanged. -/
theorem caller_headers_mutation (d fuel : Nat) (cache : Option (String × String))
    (vc : Bool) (method url : String) (hdrs0 : List (String × String)) (ua : String)
    (orig : Resp) (verifyRes : Option Nat) (retry : Resp) (out : ReqRes)
    (h : requestM d fuel cache vc method url hdrs0 ua orig verifyRes retry = some out) :
    (∀ k w, pyLookup hdrs0 k = some w → pyLookup out.callerHeaders k = some w) ∧
    (pyLookup hdrs0 "User-Agent" = none →
      pyLookup out.callerHeaders "User-Agent" = some ua) ∧
    (∀ dom, matchDomain url = some dom → pyLookup hdrs0 "Referer" = none →
      pyLookup out.callerHeaders "Referer" = some dom) := by
  obtain ⟨dom, hdom, hch⟩ := requestM_callerHeaders d fuel cache vc method url hdrs0 ua
    orig verifyRes retry out h
  refine ⟨?_, ?_, ?_⟩
  · intro k w hk
    rw [hch]
    exact pyLookup_pySetdefault_of_some _ _ _ _ _
      (pyLookup_pySetdefault_of_some _ _ _ _ _ hk)
  · intro hua
    rw [hch]
    exact pyLookup_pySetdefault_of_some _ _ _ _ _
      (pyLookup_pySetdefault_insert _ _ _ hua)
  · intro dom2 hdom2 href
    rw [hdom] at hdom2
    cases hdom2
    rw [hch]
    refine pyLookup_pySetdefault_insert _ _ _ ?_
    exact pyLookup_pySetdefault_of_none_ne _ _ _ _ href (by decide)

/-- Witness for C10: a caller-supplied `Accept` entry survives, and absent
`User-Agent` and `Referer` entries are inserted, visibly for the caller. -/
theorem caller_headers_mutation_witness :
    pyLookup (((requestM 0 1 none false "GET" exUrl [("Accept", "x")] "UA1"
        ⟨200, exPlainHtml, []⟩ (some 200) ⟨200, "", []⟩).getD
          dummyReqRes).callerHeaders) "Accept" = some "x" ∧
    pyLookup (((requestM 0 1 none false "GET" exUrl [("Accept", "x")] "UA1"
        ⟨200, exPlainHtml, []⟩ (some 200) ⟨200, "", []⟩).getD
          dummyReqRes).callerHeaders) "User-Agent" = some "UA1" ∧
    pyLookup (((requestM 0 1 none false "GET" exUrl [("Accept", "x")] "UA1"
        ⟨200, exPlainHtml, []⟩ (some 200) ⟨200, "", []⟩).getD
          dummyReqRes).callerHeaders) "Referer" = some "https://example.com" := by
  obtain ⟨h1, h2, h3⟩ := caller_headers_mutation 0 1 none false "GET" exUrl
    [("Accept", "x")] "UA1" ⟨200, exPlainHtml, []⟩ (some 200) ⟨200, "", []⟩
    ((requestM 0 1 none false "GET" exUrl [("Accept", "x")] "UA1"
      ⟨200, exPlainHtml, []⟩ (some 200) ⟨200, "", []⟩).getD dummyReqRes) (by decide)
  exact ⟨h1 "Accept" "x" (by decide), h2 (by decide),
    h3 "https://example.com" (by decide) (by decide)⟩

end Alos
